import Mathlib

/-!
Verification of the supervisor in `system/manager/manager.py`.

The configuration store (`Params`) is embedded as an association list where
`put` prepends and `get` returns the most recent binding, which matches the
observable get/put semantics of the persistent key-value store.  The control
loop (`manager_thread`), the cleanup routine (`manager_cleanup`) and `main`
are embedded as trace-producing functions: each externally visible side
effect of the Python code (a category clear, a reconciliation call, a
heartbeat publication, a parameter write, a worker stop, a hardware action)
becomes one `Event` in the produced trace, in program order.
-/

namespace Manager

/-- Lifecycle categories of configuration keys (`ParamKeyType` in the source). -/
inductive ParamKeyType where
  | CLEAR_ON_MANAGER_START
  | CLEAR_ON_ONROAD_TRANSITION
  | CLEAR_ON_OFFROAD_TRANSITION
  | DEVELOPMENT_ONLY
  deriving DecidableEq, Repr

/-- The persistent key-value store, embedded as an association list.
`put` prepends, `get` returns the newest binding. -/
abbrev Params := List (String × String)

/-- `params.get(key)`: the most recently written value, if any. -/
def Params.get : Params → String → Option String
  | [], _ => none
  | (k, v) :: ps, key => if k = key then some v else Params.get ps key

/-- `params.put(key, value)`. -/
def Params.put (ps : Params) (key value : String) : Params :=
  (key, value) :: ps

/-- `params.get_bool(key)`: true exactly when the stored value is "1";
an absent key reads as false. -/
def Params.getBool (ps : Params) (key : String) : Bool :=
  match Params.get ps key with
  | some v => v = "1"
  | none => false

/-- `params.clear_all(category)`: deletes every key tagged with the category.
The static key-to-category schema is passed in as `keyCats`. -/
def Params.clearAll (keyCats : String → ParamKeyType → Bool)
    (cat : ParamKeyType) (ps : Params) : Params :=
  ps.filter (fun kv => !(keyCats kv.1 cat))

/-- The hardware actions `main` can take after cleanup. -/
inductive HwAction where
  | uninstall
  | reboot
  | shutdown
  deriving DecidableEq, Repr

/-- Externally visible side effects of the supervisor, in program order. -/
inductive Event where
  | clearAll (cat : ParamKeyType)
  | writeOnroadParams (started : Bool)
  | ensureRunning (started : Bool) (notRun : List String)
  | publish (processNames : List String)
  | putParam (key value : String)
  | factoryReset
  | stop (name : String) (block : Bool)
  | hwAction (a : HwAction)
  deriving DecidableEq, Repr

/-- The per-tick external inputs of the control loop: the sampled onroad
flag and the values the four shutdown-flag keys read during the scan. -/
structure TickInput where
  started : Bool
  doUninstall : Bool
  doShutdown : Bool
  doReboot : Bool
  dpReset : Bool
  deriving DecidableEq, Repr

/-- The value `params.get_bool(param)` returns during the shutdown scan. -/
def TickInput.flag (t : TickInput) : String → Bool
  | "DoUninstall" => t.doUninstall
  | "DoShutdown" => t.doShutdown
  | "DoReboot" => t.doReboot
  | "dp_device_reset_conf" => t.dpReset
  | _ => false

/-- True when at least one of the four shutdown flags reads true. -/
def TickInput.flagAny (t : TickInput) : Bool :=
  t.doUninstall || t.doShutdown || t.doReboot || t.dpReset

/-- The fixed scan order of the shutdown-flag keys (line 224). -/
def shutdown_scan_order : List String :=
  ["DoUninstall", "DoShutdown", "DoReboot", "dp_device_reset_conf"]

/-- One iteration of the shutdown-flag scan loop body (lines 225-230). -/
def scan_step (t : TickInput) (acc : List Event × Bool) (param : String) :
    List Event × Bool :=
  if t.flag param then
    (acc.1 ++ (if param = "dp_device_reset_conf" then [Event.factoryReset] else [])
          ++ [Event.putParam "LastManagerExitReason" param], true)
  else acc

/-- The shutdown-flag scan (lines 222-230): events it emits and whether the
loop will break.  The timestamp appended to the recorded reason in the source
is outside the embedding; the recorded value is the flag name. -/
def scan_flags (t : TickInput) : List Event × Bool :=
  List.foldl (scan_step t) ([], false) shutdown_scan_order

/-- One body of the `while True` loop of `manager_thread` (lines 195-233):
the events it emits and whether it breaks afterwards.  `procs` is the
registry-ordered list of managed process names, `ignore` the not-run list
computed before the loop, `prev` the `started_prev` value. -/
def tick (procs ignore : List String) (prev : Bool) (t : TickInput) :
    List Event × Bool :=
  let s := t.started
  let e1 : List Event :=
    if s && !prev then [Event.clearAll ParamKeyType.CLEAR_ON_ONROAD_TRANSITION]
    else if !s && prev then [Event.clearAll ParamKeyType.CLEAR_ON_OFFROAD_TRANSITION]
    else []
  let e2 : List Event := if s != prev then [Event.writeOnroadParams s] else []
  let scanned := scan_flags t
  (e1 ++ e2 ++ [Event.ensureRunning s ignore] ++ [Event.publish procs] ++ scanned.1,
   scanned.2)

/-- The control loop: event lists of the ticks actually performed, stopping
after the first tick whose shutdown scan requests a break. -/
def loop_ticks (procs ignore : List String) (prev : Bool) :
    List TickInput → List (List Event)
  | [] => []
  | t :: ts =>
    let r := tick procs ignore prev t
    if r.2 then [r.1] else r.1 :: loop_ticks procs ignore t.started ts

/-- The `started_prev` value after processing a list of samples. -/
def prevAfter (prev : Bool) (l : List TickInput) : Bool :=
  List.foldl (fun _ t => t.started) prev l

/-- All externally visible events of `manager_thread` (lines 164-233): the
pre-loop baseline write and reconciliation (lines 189-190), then the loop
ticks with `started_prev` initialised to false. -/
def manager_thread_events (procs ignore : List String)
    (inputs : List TickInput) : List Event :=
  [Event.writeOnroadParams false, Event.ensureRunning false ignore]
    ++ (loop_ticks procs ignore false inputs).flatten

/-- `manager_cleanup` (lines 153-162): a non-blocking stop signal to every
process, then a blocking stop of every process. -/
def manager_cleanup_events (procs : List String) : List Event :=
  procs.map (fun p => Event.stop p false) ++ procs.map (fun p => Event.stop p true)

/-- The final hardware-action decision of `main` (lines 251-260), reading the
store as it stands after cleanup. -/
def hardware_action (ps : Params) : Option HwAction :=
  if Params.getBool ps "DoUninstall" then some HwAction.uninstall
  else if Params.getBool ps "DoReboot" then some HwAction.reboot
  else if Params.getBool ps "DoShutdown" then some HwAction.shutdown
  else none

/-- Process exit status. -/
inductive ExitStatus where
  | zero
  | nonzero
  deriving DecidableEq, Repr

/-- The `main` entry point together with the `__main__` wrapper
(lines 235-260 and 277-302), as a trace and an exit status.
* `initFails` models `manager_init` raising (for example the registration
  failure of lines 125-130): `main` never reaches its try/finally, the
  `__main__` handler stops only the `ui` process and re-raises, so the
  process exits non-zero.
* `prepareOnly` models the PREPAREONLY environment flag (line 237).
* `raiseAfter = some k` models an exception escaping the loop body after `k`
  completed ticks: `main` catches it and the `finally` clause still runs
  `manager_cleanup`, after which `main` proceeds to the hardware action.
* `finalPs` is the store as reread at line 251. -/
def main_events (initFails prepareOnly : Bool) (raiseAfter : Option Nat)
    (procs ignore : List String) (inputs : List TickInput) (finalPs : Params) :
    List Event × ExitStatus :=
  if initFails then ([Event.stop "ui" true], ExitStatus.nonzero)
  else if prepareOnly then ([], ExitStatus.zero)
  else
    let loopEvs :=
      match raiseAfter with
      | none => manager_thread_events procs ignore inputs
      | some k => manager_thread_events procs ignore (inputs.take k)
    (loopEvs ++ manager_cleanup_events procs
      ++ ((hardware_action finalPs).toList.map Event.hwAction),
     ExitStatus.zero)

/-- Modelled from the spec: the sentinel "unregistered" identity exposed by
the registration service (`UNREGISTERED_DONGLE_ID` in
`system/athena/registration.py`, which is outside the visible source);
the spec only requires it to be a distinguished sentinel value. -/
def UNREGISTERED_DONGLE_ID : String := "UnregisteredDevice"

/-- The inputs of the ignore-list computation of `manager_thread`
(lines 171-184): the two device flags, the stored dongle id, the NOBOARD
environment flag and the raw BLOCK environment variable. -/
structure IgnoreCtx where
  dp_device_dm_unavailable : Bool
  dp_device_is_clone : Bool
  dongleId : Option String
  noboard : Bool
  blockEnv : String
  deriving DecidableEq, Repr

/-- The ignore list built once before the loop (lines 171-184), in source
order: clone/dm-unavailable gating, the registration gate, NOBOARD, and the
comma-separated BLOCK list with empty entries dropped. -/
def compute_ignore (ctx : IgnoreCtx) : List String :=
  let i1 : List String :=
    if ctx.dp_device_is_clone || ctx.dp_device_dm_unavailable then
      ["manage_athenad", "uploader"]
        ++ (if ctx.dp_device_dm_unavailable then ["dmonitoringd", "dmonitoringmodeld"] else [])
    else []
  let i2 : List String :=
    i1 ++ (if ctx.dongleId = none ∨ ctx.dongleId = some UNREGISTERED_DONGLE_ID then
      ["manage_athenad", "uploader"] else [])
  let i3 : List String := i2 ++ (if ctx.noboard then ["pandad"] else [])
  i3 ++ ((ctx.blockEnv.splitOn ",").filter (fun x => x.length > 0))

/-- A worker definition: its unique name and its enablement predicate over
the sampled onroad flag (the rest of the enablement context is fixed for a
run and folded into the predicate). -/
structure WorkerSpec where
  name : String
  enabled : Bool → Bool

/-- Target state of a worker as driven by the reconciler. -/
inductive WState where
  | Stopped
  | Running
  deriving DecidableEq, Repr

/-- Modelled from the spec: the decision of `ensure_running`
(`system/manager/process.py`, outside the visible source); per the spec,
shouldRun is the enablement predicate conjoined with absence from the
not-run list. -/
def should_run (w : WorkerSpec) (started : Bool) (not_run : List String) : Bool :=
  w.enabled started && !(decide (w.name ∈ not_run))

/-- Modelled from the spec: the state the reconciler drives a worker toward
on a tick; a worker with shouldRun false is driven to (or kept at) Stopped,
never transitioned to Running. -/
def reconcile_target (w : WorkerSpec) (started : Bool) (not_run : List String) :
    WState :=
  if should_run w started not_run then WState.Running else WState.Stopped

/-- The static default-parameter table of `manager_init` (lines 32-91). -/
def default_params : List (String × String) :=
  [("CompletedTrainingVersion", "0"),
   ("DisengageOnAccelerator", "0"),
   ("GsmMetered", "1"),
   ("HasAcceptedTerms", "0"),
   ("LanguageSetting", "main_zh-CHT"),
   ("OpenpilotEnabledToggle", "1"),
   ("LongitudinalPersonality", "standard"),
   ("dp_device_display_off_mode", "0"),
   ("dp_ui_rainbow", "0"),
   ("dp_ui_flight_panel", "0"),
   ("dp_long_de2e", "0"),
   ("dp_long_personality_btn", "0"),
   ("dp_ui_map_full", "0"),
   ("dp_alka", "0"),
   ("dp_device_ip_addr", ""),
   ("dp_vag_sng", "0"),
   ("dp_vehicle_list", ""),
   ("dp_vehicle_assigned", ""),
   ("dp_nav_free_map", "0"),
   ("dp_nav_name", "0"),
   ("dp_nav_traffic", "0"),
   ("dp_toyota_auto_lock", "0"),
   ("dp_toyota_auto_unlock", "0"),
   ("dp_device_disable_onroad_uploads", "0"),
   ("dp_toyota_zss", "0"),
   ("dp_hkg_canfd_low_speed_turn_enhancer", "0"),
   ("dp_long_alt_driving_personality_mode", "0"),
   ("dp_long_alt_driving_personality_speed", "0"),
   ("dp_long_curve_speed_limiter", "0"),
   ("dp_lat_lane_change_assist_mode", "0"),
   ("dp_lat_lane_change_assist_speed", "32"),
   ("dp_lat_lane_change_assist_auto_timer", "1.5"),
   ("dp_lat_road_edge_detection", "0"),
   ("dp_device_disable_logging", "0"),
   ("dp_toyota_pcm_compensation", "0"),
   ("dp_device_is_clone", "0"),
   ("dp_device_dm_unavailable", "0"),
   ("dp_toyota_enhanced_bsm", "0"),
   ("dp_toyota_auto_brake_hold", "0"),
   ("dp_toyota_sng", "0"),
   ("dp_tetoo", "0"),
   ("dp_tetoo_data", ""),
   ("dp_tetoo_gps", ""),
   ("dp_tetoo_speed_camera_taiwan", "0"),
   ("dp_tetoo_speed_camera_threshold", "0"),
   ("dp_long_de2e_road_condition", "1"),
   ("dp_device_auto_shutdown", "0"),
   ("dp_device_auto_shutdown_in", "30"),
   ("dp_device_audible_alert_mode", "0"),
   ("dp_long_pal", "0"),
   ("dp_long_pal_freeze", "0"),
   ("dp_long_pal_launch_boost", "0"),
   ("dp_vag_pq_steering_patch", "0"),
   ("dp_lat_lane_priority_mode", "0"),
   ("dp_lat_lane_priority_mode_speed", "0"),
   ("dp_lat_lane_priority_mode_camera_offset", "4")]

/-- The body of the default-seeding loop (lines 101-103): write only if the
key is absent. -/
def ensure_default (ps : Params) (k v : String) : Params :=
  if (Params.get ps k).isNone then Params.put ps k v else ps

/-- The default-seeding loop over a default table. -/
def seed_defaults (ps : Params) (defaults : List (String × String)) : Params :=
  List.foldl (fun ps kv => ensure_default ps kv.1 kv.2) ps defaults

/-- The build metadata written by lines 114-122, as opaque input values. -/
structure BuildMeta where
  version : String
  termsVersion : String
  trainingVersion : String
  gitCommit : String
  gitCommitDate : String
  channel : String
  gitRemote : String
  testedChannel : Bool
  releaseChannel : Bool

/-- The store-effect pipeline of `manager_init` after the category clears,
in source order: the unconditional `dp_vehicle_list` write (line 95) where
`vl` is the computed supported-vehicle list, the RecordFrontLock
propagation (lines 97-98), the default seeding (lines 100-103) over the
static table extended with the non-PC `LastUpdateTime` entry (`extra`,
lines 92-93), and the version writes (lines 113-122). -/
def manager_init_store_tail (meta : BuildMeta) (vl : String)
    (extra : List (String × String)) (ps4 : Params) : Params :=
  let ps5 := Params.put ps4 "dp_vehicle_list" vl
  let ps6 :=
    if Params.getBool ps5 "RecordFrontLock" then Params.put ps5 "RecordFront" "1"
    else ps5
  let ps7 := seed_defaults ps6 (default_params ++ extra)
  let ps8 := Params.put ps7 "Version" meta.version
  let ps9 := Params.put ps8 "TermsVersion" meta.termsVersion
  let ps10 := Params.put ps9 "TrainingVersion" meta.trainingVersion
  let ps11 := Params.put ps10 "GitCommit" meta.gitCommit
  let ps12 := Params.put ps11 "GitCommitDate" meta.gitCommitDate
  let ps13 := Params.put ps12 "GitBranch" meta.channel
  let ps14 := Params.put ps13 "GitRemote" meta.gitRemote
  let ps15 := Params.put ps14 "IsTestedBranch" (if meta.testedChannel then "1" else "0")
  Params.put ps15 "IsReleaseBranch" (if meta.releaseChannel then "1" else "0")

/-- The store-effect pipeline of `manager_init`, from the initial clears
(lines 27-31) through the tail above. -/
def manager_init_store (keyCats : String → ParamKeyType → Bool)
    (meta : BuildMeta) (vl : String) (extra : List (String × String))
    (ps0 : Params) : Params :=
  let ps1 := Params.clearAll keyCats ParamKeyType.CLEAR_ON_MANAGER_START ps0
  let ps2 := Params.clearAll keyCats ParamKeyType.CLEAR_ON_ONROAD_TRANSITION ps1
  let ps3 := Params.clearAll keyCats ParamKeyType.CLEAR_ON_OFFROAD_TRANSITION ps2
  let ps4 :=
    if meta.releaseChannel then Params.clearAll keyCats ParamKeyType.DEVELOPMENT_ONLY ps3
    else ps3
  manager_init_store_tail meta vl extra ps4

/-- The value left in `LastManagerExitReason` by a list of events: the last
write to that key, if any. -/
def recordedReason (evs : List Event) : Option String :=
  (evs.filterMap (fun e =>
    match e with
    | Event.putParam "LastManagerExitReason" v => some v
    | _ => none)).getLast?

/-- Definition following the claim wording: the first flag in the fixed scan
order that reads true. -/
def first_matching_flag (t : TickInput) : Option String :=
  (shutdown_scan_order.filter (fun p => t.flag p)).head?

/-- The last flag in the fixed scan order that reads true. -/
def last_matching_flag (t : TickInput) : Option String :=
  (shutdown_scan_order.filter (fun p => t.flag p)).getLast?

/-- Count of false-to-true edges in a sample sequence, from a baseline. -/
def risingEdges : Bool → List Bool → Nat
  | _, [] => 0
  | prev, b :: bs => (if b && !prev then 1 else 0) + risingEdges b bs

/-- Count of true-to-false edges in a sample sequence, from a baseline. -/
def fallingEdges : Bool → List Bool → Nat
  | _, [] => 0
  | prev, b :: bs => (if !b && prev then 1 else 0) + fallingEdges b bs

/-- Recognises a worker-stop event. -/
def isStopEvent : Event → Bool
  | Event.stop _ _ => true
  | _ => false

/-- Recognises a reconciliation (`ensure_running`) event. -/
def isReconcileEvent : Event → Bool
  | Event.ensureRunning _ _ => true
  | _ => false

/-- Recognises a heartbeat (`managerState`) publication event. -/
def isHeartbeatEvent : Event → Bool
  | Event.publish _ => true
  | _ => false

theorem Params.get_put_self (ps : Params) (k v : String) :
    Params.get (Params.put ps k v) k = some v := by
  simp [Params.put, Params.get]

theorem Params.get_put_other (ps : Params) (k v key : String) (h : k ≠ key) :
    Params.get (Params.put ps k v) key = Params.get ps key := by
  simp [Params.put, Params.get, h]

theorem seed_defaults_nil (ps : Params) : seed_defaults ps [] = ps := rfl

theorem seed_defaults_cons (ps : Params) (kv : String × String)
    (ds : List (String × String)) :
    seed_defaults ps (kv :: ds) = seed_defaults (ensure_default ps kv.1 kv.2) ds := rfl

theorem get_ensure_default_of_isSome (ps : Params) (k v key : String)
    (h : (Params.get ps key).isSome) :
    Params.get (ensure_default ps k v) key = Params.get ps key := by
  unfold ensure_default
  split
  · rename_i hnone
    have hne : k ≠ key := by
      intro he
      rw [he] at hnone
      rw [Option.isNone_iff_eq_none] at hnone
      rw [hnone] at h
      simp at h
    exact Params.get_put_other ps k v key hne
  · rfl

theorem isSome_get_ensure_default (ps : Params) (k v key : String)
    (h : (Params.get ps key).isSome) :
    (Params.get (ensure_default ps k v) key).isSome := by
  rw [get_ensure_default_of_isSome ps k v key h]
  exact h

theorem isSome_get_ensure_default_self (ps : Params) (k v : String) :
    (Params.get (ensure_default ps k v) k).isSome := by
  unfold ensure_default
  split
  · rw [Params.get_put_self]
    rfl
  · rename_i hnone
    rw [Bool.not_eq_true, Option.isNone_eq_false_iff] at hnone
    exact hnone

theorem seed_defaults_get_of_isSome (ds : List (String × String)) (ps : Params)
    (key : String) (h : (Params.get ps key).isSome) :
    Params.get (seed_defaults ps ds) key = Params.get ps key := by
  induction ds generalizing ps with
  | nil => rfl
  | cons kv ds ih =>
    rw [seed_defaults_cons,
      ih (ensure_default ps kv.1 kv.2) (isSome_get_ensure_default ps kv.1 kv.2 key h),
      get_ensure_default_of_isSome ps kv.1 kv.2 key h]

theorem isSome_seed_defaults_of_isSome (ds : List (String × String)) (ps : Params)
    (key : String) (h : (Params.get ps key).isSome) :
    (Params.get (seed_defaults ps ds) key).isSome := by
  rw [seed_defaults_get_of_isSome ds ps key h]
  exact h

theorem isSome_seed_defaults_mem (ds : List (String × String)) (ps : Params) :
    ∀ kv ∈ ds, (Params.get (seed_defaults ps ds) kv.1).isSome := by
  induction ds generalizing ps with
  | nil => intro kv hkv; simp at hkv
  | cons hd ds ih =>
    intro kv hkv
    rw [List.mem_cons] at hkv
    rcases hkv with hkv | hkv
    · rw [seed_defaults_cons, hkv]
      exact isSome_seed_defaults_of_isSome ds _ hd.1
        (isSome_get_ensure_default_self ps hd.1 hd.2)
    · rw [seed_defaults_cons]
      exact ih (ensure_default ps hd.1 hd.2) kv hkv

theorem ensure_default_of_isSome (ps : Params) (k v : String)
    (h : (Params.get ps k).isSome) : ensure_default ps k v = ps := by
  unfold ensure_default
  rw [if_neg]
  rw [Option.isNone_iff_eq_none]
  intro he
  rw [he] at h
  simp at h

theorem seed_defaults_noop (ds : List (String × String)) (ps : Params)
    (h : ∀ kv ∈ ds, (Params.get ps kv.1).isSome) : seed_defaults ps ds = ps := by
  induction ds with
  | nil => rfl
  | cons hd ds ih =>
    rw [seed_defaults_cons, ensure_default_of_isSome ps hd.1 hd.2 (h hd (by simp))]
    exact ih (fun kv hkv => h kv (List.mem_cons_of_mem hd hkv))

/-- C6: seeding a default value is idempotent and never overwrites an
existing value.  The per-key seeding step writes only when the key is
absent, so repeating it (per key or over the whole default table) changes
nothing, and a previously stored value is left untouched. -/
theorem ensure_default_idempotent (ps : Params) (k v : String) :
    ensure_default (ensure_default ps k v) k v = ensure_default ps k v ∧
    (∀ w, Params.get ps k = some w → Params.get (ensure_default ps k v) k = some w) ∧
    seed_defaults (seed_defaults ps default_params) default_params =
      seed_defaults ps default_params := by
  refine ⟨?_, ?_, ?_⟩
  · exact ensure_default_of_isSome _ k v (isSome_get_ensure_default_self ps k v)
  · intro w hw
    rw [get_ensure_default_of_isSome ps k v k (by rw [hw]; rfl)]
    exact hw
  · exact seed_defaults_noop default_params _ (isSome_seed_defaults_mem default_params ps)

/-- C6 witness: a store holding "7" under CompletedTrainingVersion keeps it
through seeding with the default "0". -/
theorem ensure_default_idempotent_witness :
    Params.get (ensure_default [("CompletedTrainingVersion", "7")]
      "CompletedTrainingVersion" "0") "CompletedTrainingVersion" = some "7" :=
  (ensure_default_idempotent [("CompletedTrainingVersion", "7")]
    "CompletedTrainingVersion" "0").2.1 "7" rfl

theorem manager_init_store_tail_get (meta : BuildMeta) (vl : String)
    (extra : List (String × String)) (ps4 : Params) :
    Params.get (manager_init_store_tail meta vl extra ps4) "dp_vehicle_list" =
      some vl := by
  unfold manager_init_store_tail
  rw [Params.get_put_other _ _ _ _ (by decide)]
  rw [Params.get_put_other _ _ _ _ (by decide)]
  rw [Params.get_put_other _ _ _ _ (by decide)]
  rw [Params.get_put_other _ _ _ _ (by decide)]
  rw [Params.get_put_other _ _ _ _ (by decide)]
  rw [Params.get_put_other _ _ _ _ (by decide)]
  rw [Params.get_put_other _ _ _ _ (by decide)]
  rw [Params.get_put_other _ _ _ _ (by decide)]
  rw [Params.get_put_other _ _ _ _ (by decide)]
  split
  · rw [seed_defaults_get_of_isSome _ _ _
      (by rw [Params.get_put_other _ _ _ _ (by decide), Params.get_put_self]; rfl)]
    rw [Params.get_put_other _ _ _ _ (by decide)]
    exact Params.get_put_self _ _ _
  · rw [seed_defaults_get_of_isSome _ _ _ (by rw [Params.get_put_self]; rfl)]
    exact Params.get_put_self _ _ _

/-- C10: `manager_init` writes the computed supported-vehicle list under
`dp_vehicle_list` before the default-seeding loop runs, so after
`manager_init` the key always holds exactly that computed value, whatever
the prior store contents: the empty-string entry of the default table can
never take effect. -/
theorem manager_init_vehicle_list (keyCats : String → ParamKeyType → Bool)
    (meta : BuildMeta) (vl : String) (extra : List (String × String))
    (ps0 : Params) :
    Params.get (manager_init_store keyCats meta vl extra ps0) "dp_vehicle_list" =
      some vl :=
  manager_init_store_tail_get meta vl extra _

/-- C9: after the loop exits and cleanup completes, `main` takes at most one
hardware action (the decision returns at most one value), selected with
priority uninstall over reboot over shutdown; when none of those three
flags is set no action is taken, whatever `dp_device_reset_conf` holds. -/
theorem hardware_action_priority (ps : Params) :
    (Params.getBool ps "DoUninstall" = true →
      hardware_action ps = some HwAction.uninstall) ∧
    (Params.getBool ps "DoUninstall" = false →
      Params.getBool ps "DoReboot" = true →
      hardware_action ps = some HwAction.reboot) ∧
    (Params.getBool ps "DoUninstall" = false →
      Params.getBool ps "DoReboot" = false →
      Params.getBool ps "DoShutdown" = true →
      hardware_action ps = some HwAction.shutdown) ∧
    (Params.getBool ps "DoUninstall" = false →
      Params.getBool ps "DoReboot" = false →
      Params.getBool ps "DoShutdown" = false →
      hardware_action ps = none) := by
  refine ⟨?_, ?_, ?_, ?_⟩
  · intro h1
    simp [hardware_action, h1]
  · intro h1 h2
    simp [hardware_action, h1, h2]
  · intro h1 h2 h3
    simp [hardware_action, h1, h2, h3]
  · intro h1 h2 h3
    simp [hardware_action, h1, h2, h3]

/-- C9 witness: a store holding only the factory-reset flag yields no
hardware action. -/
theorem hardware_action_priority_witness :
    hardware_action [("dp_device_reset_conf", "1")] = none :=
  (hardware_action_priority [("dp_device_reset_conf", "1")]).2.2.2 rfl rfl rfl

theorem scan_flags_snd (t : TickInput) : (scan_flags t).2 = t.flagAny := by
  rcases t with ⟨s, u, d, r, c⟩
  cases u <;> cases d <;> cases r <;> cases c <;> rfl

theorem tick_snd (procs ignore : List String) (prev : Bool) (t : TickInput) :
    (tick procs ignore prev t).2 = t.flagAny := by
  rw [show (tick procs ignore prev t).2 = (scan_flags t).2 from rfl, scan_flags_snd]

theorem loop_ticks_break_of_flag (procs ignore : List String) (prev : Bool)
    (t : TickInput) (rest : List TickInput) (h : t.flagAny = true) :
    loop_ticks procs ignore prev (t :: rest) = [(tick procs ignore prev t).1] := by
  have h2 : (tick procs ignore prev t).2 = true := by rw [tick_snd, h]
  simp [loop_ticks, h2]

theorem loop_ticks_cons_of_noflag (procs ignore : List String) (prev : Bool)
    (t : TickInput) (rest : List TickInput) (h : t.flagAny = false) :
    loop_ticks procs ignore prev (t :: rest) =
      (tick procs ignore prev t).1 :: loop_ticks procs ignore t.started rest := by
  have h2 : (tick procs ignore prev t).2 = false := by rw [tick_snd, h]
  simp [loop_ticks, h2]

/-- C2 counterexample: on a tick reading both DoUninstall and DoShutdown as
true, the scan still requests shutdown, but the reason recorded in
LastManagerExitReason is "DoShutdown" — each matching flag overwrites the
previous write, so the recorded reason differs from the first matching flag
in scan order ("DoUninstall"). -/
theorem scan_reason_counterexample :
    (scan_flags ⟨false, true, true, false, false⟩).2 = true ∧
    recordedReason (scan_flags ⟨false, true, true, false, false⟩).1 =
      some "DoShutdown" ∧
    first_matching_flag ⟨false, true, true, false, false⟩ = some "DoUninstall" ∧
    recordedReason (scan_flags ⟨false, true, true, false, false⟩).1 ≠
      first_matching_flag ⟨false, true, true, false, false⟩ := by
  decide

/-- C2 amended: when more than one shutdown flag among the fixed scan set is
true on the same tick, the reason recorded in LastManagerExitReason is the
LAST matching flag in the fixed scan order (each match overwrites the
record), while every matching flag still forces the loop to exit. -/
theorem scan_reason_last_match (t : TickInput) :
    (scan_flags t).2 = t.flagAny ∧
    recordedReason (scan_flags t).1 = last_matching_flag t ∧
    (∀ procs ignore prev rest, t.flagAny = true →
      loop_ticks procs ignore prev (t :: rest) = [(tick procs ignore prev t).1]) := by
  refine ⟨scan_flags_snd t, ?_, ?_⟩
  · rcases t with ⟨s, u, d, r, c⟩
    cases u <;> cases d <;> cases r <;> cases c <;> rfl
  · intro procs ignore prev rest h
    exact loop_ticks_break_of_flag procs ignore prev t rest h

/-- C2 amended witness, at a tick with DoShutdown and DoReboot both set:
the scan requests shutdown, records "DoReboot" (the last match), and the
loop performs no further tick. -/
theorem scan_reason_last_match_witness :
    ((scan_flags ⟨false, false, true, true, false⟩).2 =
      TickInput.flagAny ⟨false, false, true, true, false⟩) ∧
    recordedReason (scan_flags ⟨false, false, true, true, false⟩).1 =
      last_matching_flag ⟨false, false, true, true, false⟩ ∧
    loop_ticks ["camerad"] [] false [⟨false, false, true, true, false⟩] =
      [(tick ["camerad"] [] false ⟨false, false, true, true, false⟩).1] :=
  ⟨(scan_reason_last_match ⟨false, false, true, true, false⟩).1,
   (scan_reason_last_match ⟨false, false, true, true, false⟩).2.1,
   (scan_reason_last_match ⟨false, false, true, true, false⟩).2.2
     ["camerad"] [] false [] (by decide)⟩

/-- C1 counterexample: when `manager_init` raises, the process exits
non-zero but `manager_cleanup` does not run — with registry
["ui", "pandad"], the worker "pandad" receives neither the non-blocking nor
the blocking stop before exit. -/
theorem main_init_failure_counterexample :
    (main_events true false none ["ui", "pandad"] [] [] []).2 =
      ExitStatus.nonzero ∧
    Event.stop "pandad" true ∉ (main_events true false none ["ui", "pandad"] [] [] []).1 ∧
    Event.stop "pandad" false ∉ (main_events true false none ["ui", "pandad"] [] [] []).1 := by
  decide

/-- C1 amended: if `manager_init` raises an uncaught exception, the
Shutdown Sequencer (`manager_cleanup`) is NOT executed; the top-level
handler stops only the `ui` worker and the process exits non-zero.
`manager_cleanup` runs only once `manager_thread` has been entered. -/
theorem main_init_failure_behavior (po : Bool) (ra : Option Nat)
    (procs ignore : List String) (inputs : List TickInput) (ps : Params) :
    main_events true po ra procs ignore inputs ps =
      ([Event.stop "ui" true], ExitStatus.nonzero) ∧
    (∀ p b, Event.stop p b ∈ (main_events true po ra procs ignore inputs ps).1 →
      p = "ui" ∧ b = true) := by
  constructor
  · rfl
  · intro p b h
    simp [main_events] at h
    exact h

/-- C1 amended witness: concrete instantiation with registry
["ui", "pandad"]. -/
theorem main_init_failure_behavior_witness :
    main_events true false none ["ui", "pandad"] [] [] [] =
      ([Event.stop "ui" true], ExitStatus.nonzero) ∧ ("ui" = "ui" ∧ true = true) :=
  ⟨(main_init_failure_behavior false none ["ui", "pandad"] [] [] []).1,
   (main_init_failure_behavior false none ["ui", "pandad"] [] [] []).2
     "ui" true (by decide)⟩

theorem mem_ite_singleton {α : Type} (c : Prop) [Decidable c] (x e : α)
    (h : e ∈ (if c then [x] else [])) : e = x := by
  split at h
  · simpa using h
  · simp at h

theorem mem_ite_ite_singleton {α : Type} (c1 c2 : Prop) [Decidable c1] [Decidable c2]
    (x y e : α) (h : e ∈ (if c1 then [x] else if c2 then [y] else [])) :
    e = x ∨ e = y := by
  split at h
  · exact Or.inl (by simpa using h)
  · split at h
    · exact Or.inr (by simpa using h)
    · simp at h

/-- Every event the shutdown scan emits is a parameter write or the
factory-reset action. -/
theorem scan_foldl_mem_shape (t : TickInput) (params : List String)
    (acc : List Event × Bool)
    (h : ∀ e ∈ acc.1, (∃ k v, e = Event.putParam k v) ∨ e = Event.factoryReset) :
    ∀ e ∈ (List.foldl (scan_step t) acc params).1,
      (∃ k v, e = Event.putParam k v) ∨ e = Event.factoryReset := by
  induction params generalizing acc with
  | nil => exact h
  | cons p ps ih =>
    rw [List.foldl_cons]
    refine ih (scan_step t acc p) ?_
    intro e he
    unfold scan_step at he
    split at he
    · rcases List.mem_append.mp he with he2 | he2
      · rcases List.mem_append.mp he2 with he3 | he3
        · exact h e he3
        · exact Or.inr (mem_ite_singleton _ _ _ he3)
      · exact Or.inl ⟨"LastManagerExitReason", p, by simpa using he2⟩
    · exact h e he

theorem scan_flags_mem_shape (t : TickInput) :
    ∀ e ∈ (scan_flags t).1,
      (∃ k v, e = Event.putParam k v) ∨ e = Event.factoryReset :=
  scan_foldl_mem_shape t shutdown_scan_order ([], false) (by intro e he; simp at he)

theorem scan_flags_count_clear (t : TickInput) (c : ParamKeyType) :
    (scan_flags t).1.count (Event.clearAll c) = 0 := by
  rw [List.count_eq_zero]
  intro hmem
  rcases scan_flags_mem_shape t _ hmem with ⟨k, v, hkv⟩ | hfr
  · exact absurd hkv (by simp)
  · exact absurd hfr (by simp)

/-- The loop body trace, decomposed in program order: the edge-triggered
clear, the edge-triggered onroad-parameter write, the reconciliation, the
heartbeat publication, and the shutdown-scan events. -/
theorem tick_fst (procs ignore : List String) (prev : Bool) (t : TickInput) :
    (tick procs ignore prev t).1 =
      (if t.started && !prev then
          [Event.clearAll ParamKeyType.CLEAR_ON_ONROAD_TRANSITION]
        else if !t.started && prev then
          [Event.clearAll ParamKeyType.CLEAR_ON_OFFROAD_TRANSITION]
        else [])
      ++ (if t.started != prev then [Event.writeOnroadParams t.started] else [])
      ++ [Event.ensureRunning t.started ignore] ++ [Event.publish procs]
      ++ (scan_flags t).1 := rfl

theorem tick_count_clear_onroad (procs ignore : List String) (prev : Bool)
    (t : TickInput) :
    (tick procs ignore prev t).1.count
        (Event.clearAll ParamKeyType.CLEAR_ON_ONROAD_TRANSITION) =
      if t.started && !prev then 1 else 0 := by
  rw [tick_fst]
  cases hst : t.started <;> cases prev <;>
    simp [List.count_append, List.count_cons, scan_flags_count_clear]

theorem tick_count_clear_offroad (procs ignore : List String) (prev : Bool)
    (t : TickInput) :
    (tick procs ignore prev t).1.count
        (Event.clearAll ParamKeyType.CLEAR_ON_OFFROAD_TRANSITION) =
      if !t.started && prev then 1 else 0 := by
  rw [tick_fst]
  cases hst : t.started <;> cases prev <;>
    simp [List.count_append, List.count_cons, scan_flags_count_clear]

theorem loop_count_clear_onroad (procs ignore : List String) (prev : Bool)
    (inputs : List TickInput) (h : ∀ t ∈ inputs, t.flagAny = false) :
    ((loop_ticks procs ignore prev inputs).flatten).count
        (Event.clearAll ParamKeyType.CLEAR_ON_ONROAD_TRANSITION) =
      risingEdges prev (inputs.map TickInput.started) := by
  induction inputs generalizing prev with
  | nil => rfl
  | cons t ts ih =>
    have ht : t.flagAny = false := h t (by simp)
    rw [loop_ticks_cons_of_noflag procs ignore prev t ts ht, List.flatten_cons,
      List.count_append, tick_count_clear_onroad,
      ih t.started (fun u hu => h u (List.mem_cons_of_mem t hu)),
      List.map_cons]
    rfl

theorem loop_count_clear_offroad (procs ignore : List String) (prev : Bool)
    (inputs : List TickInput) (h : ∀ t ∈ inputs, t.flagAny = false) :
    ((loop_ticks procs ignore prev inputs).flatten).count
        (Event.clearAll ParamKeyType.CLEAR_ON_OFFROAD_TRANSITION) =
      fallingEdges prev (inputs.map TickInput.started) := by
  induction inputs generalizing prev with
  | nil => rfl
  | cons t ts ih =>
    have ht : t.flagAny = false := h t (by simp)
    rw [loop_ticks_cons_of_noflag procs ignore prev t ts ht, List.flatten_cons,
      List.count_append, tick_count_clear_offroad,
      ih t.started (fun u hu => h u (List.mem_cons_of_mem t hu)),
      List.map_cons]
    rfl

/-- C3: over any run of the control loop in which no shutdown flag fires,
the ONROAD_TRANSITION category is bulk-cleared exactly once per
false-to-true edge of the started flag and the OFFROAD_TRANSITION category
exactly once per true-to-false edge, against the baseline
`started_prev = false` set before the first tick; moreover no tick whose
sample equals the previous value performs either clear. -/
theorem onroad_transition_clears (procs ignore : List String)
    (inputs : List TickInput) (h : ∀ t ∈ inputs, t.flagAny = false) :
    (manager_thread_events procs ignore inputs).count
        (Event.clearAll ParamKeyType.CLEAR_ON_ONROAD_TRANSITION) =
      risingEdges false (inputs.map TickInput.started) ∧
    (manager_thread_events procs ignore inputs).count
        (Event.clearAll ParamKeyType.CLEAR_ON_OFFROAD_TRANSITION) =
      fallingEdges false (inputs.map TickInput.started) ∧
    (∀ prev t, t.started = prev →
      (tick procs ignore prev t).1.count
          (Event.clearAll ParamKeyType.CLEAR_ON_ONROAD_TRANSITION) = 0 ∧
      (tick procs ignore prev t).1.count
          (Event.clearAll ParamKeyType.CLEAR_ON_OFFROAD_TRANSITION) = 0) := by
  refine ⟨?_, ?_, ?_⟩
  · rw [show manager_thread_events procs ignore inputs =
      [Event.writeOnroadParams false, Event.ensureRunning false ignore]
        ++ (loop_ticks procs ignore false inputs).flatten from rfl]
    rw [List.count_append, loop_count_clear_onroad procs ignore false inputs h]
    simp [List.count_cons]
  · rw [show manager_thread_events procs ignore inputs =
      [Event.writeOnroadParams false, Event.ensureRunning false ignore]
        ++ (loop_ticks procs ignore false inputs).flatten from rfl]
    rw [List.count_append, loop_count_clear_offroad procs ignore false inputs h]
    simp [List.count_cons]
  · intro prev t hpt
    subst hpt
    constructor
    · rw [tick_count_clear_onroad]
      cases t.started <;> rfl
    · rw [tick_count_clear_offroad]
      cases t.started <;> rfl

/-- C3 witness: the spec scenario, onroad samples
[false, false, true, true, false] with no shutdown flags: one onroad clear,
one offroad clear, and a repeated-sample tick performs no clear. -/
theorem onroad_transition_clears_witness :
    (manager_thread_events ["modeld"] []
        [⟨false, false, false, false, false⟩, ⟨false, false, false, false, false⟩,
         ⟨true, false, false, false, false⟩, ⟨true, false, false, false, false⟩,
         ⟨false, false, false, false, false⟩]).count
        (Event.clearAll ParamKeyType.CLEAR_ON_ONROAD_TRANSITION) = 1 ∧
    (manager_thread_events ["modeld"] []
        [⟨false, false, false, false, false⟩, ⟨false, false, false, false, false⟩,
         ⟨true, false, false, false, false⟩, ⟨true, false, false, false, false⟩,
         ⟨false, false, false, false, false⟩]).count
        (Event.clearAll ParamKeyType.CLEAR_ON_OFFROAD_TRANSITION) = 1 ∧
    (tick ["modeld"] [] true ⟨true, false, false, false, false⟩).1.count
        (Event.clearAll ParamKeyType.CLEAR_ON_ONROAD_TRANSITION) = 0 :=
  ⟨((onroad_transition_clears ["modeld"] [] _ (by decide)).1).trans (by decide),
   ((onroad_transition_clears ["modeld"] [] _ (by decide)).2.1).trans (by decide),
   ((onroad_transition_clears ["modeld"] []
      [⟨false, false, false, false, false⟩] (by decide)).2.2 true
      ⟨true, false, false, false, false⟩ rfl).1⟩

/-- Every event of a loop-body trace is one of the seven forms the body can
emit, with the reconciliation and publication carrying the loop's own
arguments. -/
theorem tick_mem_cases (procs ignore : List String) (prev : Bool) (t : TickInput)
    (e : Event) (he : e ∈ (tick procs ignore prev t).1) :
    e = Event.clearAll ParamKeyType.CLEAR_ON_ONROAD_TRANSITION ∨
    e = Event.clearAll ParamKeyType.CLEAR_ON_OFFROAD_TRANSITION ∨
    e = Event.writeOnroadParams t.started ∨
    e = Event.ensureRunning t.started ignore ∨
    e = Event.publish procs ∨
    (∃ k v, e = Event.putParam k v) ∨ e = Event.factoryReset := by
  rw [tick_fst] at he
  rcases List.mem_append.mp he with h4 | hscan
  · rcases List.mem_append.mp h4 with h3 | hpub
    · rcases List.mem_append.mp h3 with h2 | hens
      · rcases List.mem_append.mp h2 with hedge | hwrite
        · rcases mem_ite_ite_singleton _ _ _ _ _ hedge with he2 | he2
          · exact Or.inl he2
          · exact Or.inr (Or.inl he2)
        · exact Or.inr (Or.inr (Or.inl (mem_ite_singleton _ _ _ hwrite)))
      · exact Or.inr (Or.inr (Or.inr (Or.inl (by simpa using hens))))
    · exact Or.inr (Or.inr (Or.inr (Or.inr (Or.inl (by simpa using hpub)))))
  · exact Or.inr (Or.inr (Or.inr (Or.inr (Or.inr (scan_flags_mem_shape t e hscan)))))

theorem tick_filter_stop (procs ignore : List String) (prev : Bool) (t : TickInput) :
    (tick procs ignore prev t).1.filter isStopEvent = [] := by
  rw [List.filter_eq_nil_iff]
  intro e he
  rcases tick_mem_cases procs ignore prev t e he with
    rfl | rfl | rfl | rfl | rfl | ⟨k, v, rfl⟩ | rfl <;> simp [isStopEvent]

theorem loop_ticks_filter_stop (procs ignore : List String) (prev : Bool)
    (inputs : List TickInput) :
    ((loop_ticks procs ignore prev inputs).flatten).filter isStopEvent = [] := by
  induction inputs generalizing prev with
  | nil => rfl
  | cons t ts ih =>
    by_cases hr : (tick procs ignore prev t).2 = true
    · rw [show loop_ticks procs ignore prev (t :: ts) =
        [(tick procs ignore prev t).1] from by simp [loop_ticks, hr]]
      simp [tick_filter_stop]
    · rw [show loop_ticks procs ignore prev (t :: ts) =
        (tick procs ignore prev t).1 :: loop_ticks procs ignore t.started ts from
        by simp [loop_ticks, hr]]
      rw [List.flatten_cons, List.filter_append, tick_filter_stop, ih t.started]
      rfl

theorem thread_filter_stop (procs ignore : List String) (inputs : List TickInput) :
    (manager_thread_events procs ignore inputs).filter isStopEvent = [] := by
  rw [show manager_thread_events procs ignore inputs =
    [Event.writeOnroadParams false, Event.ensureRunning false ignore]
      ++ (loop_ticks procs ignore false inputs).flatten from rfl]
  rw [List.filter_append, loop_ticks_filter_stop]
  rfl

theorem cleanup_filter_stop (procs : List String) :
    (manager_cleanup_events procs).filter isStopEvent = manager_cleanup_events procs := by
  rw [List.filter_eq_self]
  intro e he
  rcases List.mem_append.mp he with he | he <;>
    rcases List.mem_map.mp he with ⟨p, _, rfl⟩ <;> rfl

theorem hw_filter_stop (ps : Params) :
    ((hardware_action ps).toList.map Event.hwAction).filter isStopEvent = [] := by
  cases hha : hardware_action ps <;> simp [isStopEvent]

theorem stop_mem_main (procs ignore : List String) (inputs : List TickInput)
    (ps : Params) (ra : Option Nat) (p : String) (hp : p ∈ procs) (b : Bool) :
    Event.stop p b ∈ (main_events false false ra procs ignore inputs ps).1 := by
  have h1 : Event.stop p b ∈ manager_cleanup_events procs := by
    cases b
    · exact List.mem_append_left _ (List.mem_map.mpr ⟨p, hp, rfl⟩)
    · exact List.mem_append_right _ (List.mem_map.mpr ⟨p, hp, rfl⟩)
  cases ra with
  | none => exact List.mem_append_left _ (List.mem_append_right _ h1)
  | some k => exact List.mem_append_left _ (List.mem_append_right _ h1)

/-- C5: on any exit of the control loop body — a normal break after any
number of ticks, or an exception escaping the loop body after `k` completed
ticks — `manager_cleanup` runs before the process exits: every worker of
the registry receives first a non-blocking stop and then a blocking stop,
and the complete sequence of stop events is exactly one non-blocking pass
over the registry followed by one blocking pass. -/
theorem cleanup_on_loop_exit (procs ignore : List String) (inputs : List TickInput)
    (ps : Params) (ra : Option Nat) :
    (∀ p ∈ procs,
      Event.stop p false ∈ (main_events false false ra procs ignore inputs ps).1 ∧
      Event.stop p true ∈ (main_events false false ra procs ignore inputs ps).1) ∧
    (main_events false false ra procs ignore inputs ps).1.filter isStopEvent =
      procs.map (fun p => Event.stop p false)
        ++ procs.map (fun p => Event.stop p true) := by
  constructor
  · intro p hp
    exact ⟨stop_mem_main procs ignore inputs ps ra p hp false,
      stop_mem_main procs ignore inputs ps ra p hp true⟩
  · cases ra with
    | none =>
      show (manager_thread_events procs ignore inputs ++ manager_cleanup_events procs
        ++ ((hardware_action ps).toList.map Event.hwAction)).filter isStopEvent = _
      rw [List.filter_append, List.filter_append, thread_filter_stop,
        cleanup_filter_stop, hw_filter_stop]
      simp [manager_cleanup_events]
    | some k =>
      show (manager_thread_events procs ignore (inputs.take k)
        ++ manager_cleanup_events procs
        ++ ((hardware_action ps).toList.map Event.hwAction)).filter isStopEvent = _
      rw [List.filter_append, List.filter_append, thread_filter_stop,
        cleanup_filter_stop, hw_filter_stop]
      simp [manager_cleanup_events]

/-- C5 witness: with registry ["ui", "pandad"], the worker "pandad" receives
both stop passes on a normal exit. -/
theorem cleanup_on_loop_exit_witness :
    Event.stop "pandad" false ∈ (main_events false false none ["ui", "pandad"] [] [] []).1 ∧
    Event.stop "pandad" true ∈ (main_events false false none ["ui", "pandad"] [] [] []).1 :=
  (cleanup_on_loop_exit ["ui", "pandad"] [] [] [] none).1 "pandad" (by decide)

theorem loop_ticks_append_noflag (procs ignore : List String)
    (pre rest : List TickInput) (prev : Bool)
    (h : ∀ u ∈ pre, u.flagAny = false) :
    loop_ticks procs ignore prev (pre ++ rest) =
      loop_ticks procs ignore prev pre ++
        loop_ticks procs ignore (prevAfter prev pre) rest := by
  induction pre generalizing prev with
  | nil => rfl
  | cons t ts ih =>
    have ht : t.flagAny = false := h t (by simp)
    rw [List.cons_append, loop_ticks_cons_of_noflag procs ignore prev t (ts ++ rest) ht,
      loop_ticks_cons_of_noflag procs ignore prev t ts ht,
      ih t.started (fun u hu => h u (List.mem_cons_of_mem t hu))]
    rfl

/-- C4: on the first tick on which a shutdown flag reads true, the loop
still finishes that tick's work — its trace contains the reconciliation and
the heartbeat publication — and then breaks: the loop performs no tick
beyond it, whatever samples follow; and every worker of the registry
receives a blocking stop (`manager_cleanup`) before process exit. -/
theorem shutdown_tick_final (procs ignore : List String)
    (pre post : List TickInput) (t : TickInput) (ps : Params)
    (hpre : ∀ u ∈ pre, u.flagAny = false) (ht : t.flagAny = true) :
    loop_ticks procs ignore false (pre ++ t :: post) =
      loop_ticks procs ignore false pre ++
        [(tick procs ignore (prevAfter false pre) t).1] ∧
    Event.ensureRunning t.started ignore ∈
      (tick procs ignore (prevAfter false pre) t).1 ∧
    Event.publish procs ∈ (tick procs ignore (prevAfter false pre) t).1 ∧
    ∀ p ∈ procs, Event.stop p true ∈
      (main_events false false none procs ignore (pre ++ t :: post) ps).1 := by
  refine ⟨?_, ?_, ?_, ?_⟩
  · rw [loop_ticks_append_noflag procs ignore pre (t :: post) false hpre,
      loop_ticks_break_of_flag procs ignore (prevAfter false pre) t post ht]
  · rw [tick_fst]
    exact List.mem_append_left _
      (List.mem_append_left _ (List.mem_append_right _ (by simp)))
  · rw [tick_fst]
    exact List.mem_append_left _ (List.mem_append_right _ (by simp))
  · intro p hp
    exact stop_mem_main procs ignore (pre ++ t :: post) ps none p hp true

/-- C4 witness: one no-flag tick, then a DoShutdown tick followed by a
further sample the loop never processes; the worker "ui" still gets its
blocking stop. -/
theorem shutdown_tick_final_witness :
    (loop_ticks ["ui"] [] false
        [⟨false, false, false, false, false⟩, ⟨true, false, true, false, false⟩,
         ⟨true, false, false, false, false⟩] =
      loop_ticks ["ui"] [] false [⟨false, false, false, false, false⟩] ++
        [(tick ["ui"] [] (prevAfter false [⟨false, false, false, false, false⟩])
          ⟨true, false, true, false, false⟩).1]) ∧
    Event.stop "ui" true ∈
      (main_events false false none ["ui"] []
        [⟨false, false, false, false, false⟩, ⟨true, false, true, false, false⟩,
         ⟨true, false, false, false, false⟩] []).1 :=
  ⟨(shutdown_tick_final ["ui"] [] [⟨false, false, false, false, false⟩]
      [⟨true, false, false, false, false⟩] ⟨true, false, true, false, false⟩ []
      (by decide) (by decide)).1,
   (shutdown_tick_final ["ui"] [] [⟨false, false, false, false, false⟩]
      [⟨true, false, false, false, false⟩] ⟨true, false, true, false, false⟩ []
      (by decide) (by decide)).2.2.2 "ui" (by decide)⟩

theorem scan_flags_filter_rp (t : TickInput) :
    (scan_flags t).1.filter (fun e => isReconcileEvent e || isHeartbeatEvent e) = [] := by
  rw [List.filter_eq_nil_iff]
  intro e he
  rcases scan_flags_mem_shape t e he with ⟨k, v, rfl⟩ | rfl <;>
    simp [isReconcileEvent, isHeartbeatEvent]

theorem tick_filter_rp (procs ignore : List String) (prev : Bool) (t : TickInput) :
    (tick procs ignore prev t).1.filter
        (fun e => isReconcileEvent e || isHeartbeatEvent e) =
      [Event.ensureRunning t.started ignore, Event.publish procs] := by
  cases hst : t.started <;> cases prev <;>
    simp [tick_fst, hst, List.filter_append, List.filter_cons,
      scan_flags_filter_rp, isReconcileEvent, isHeartbeatEvent] <;>
    (intro e he
     rcases scan_flags_mem_shape t e he with ⟨k, v, rfl⟩ | rfl <;>
       constructor <;> rfl)

theorem mem_loop_ticks (procs ignore : List String) (prev : Bool)
    (inputs : List TickInput) (evs : List Event)
    (h : evs ∈ loop_ticks procs ignore prev inputs) :
    ∃ p2 t, evs = (tick procs ignore p2 t).1 := by
  induction inputs generalizing prev with
  | nil => simp [loop_ticks] at h
  | cons t ts ih =>
    by_cases hr : (tick procs ignore prev t).2 = true
    · rw [show loop_ticks procs ignore prev (t :: ts) =
        [(tick procs ignore prev t).1] from by simp [loop_ticks, hr]] at h
      exact ⟨prev, t, by simpa using h⟩
    · rw [show loop_ticks procs ignore prev (t :: ts) =
        (tick procs ignore prev t).1 :: loop_ticks procs ignore t.started ts from
        by simp [loop_ticks, hr]] at h
      rcases List.mem_cons.mp h with h | h
      · exact ⟨prev, t, h⟩
      · exact ih t.started h

/-- C8: every tick the control loop performs emits exactly one
reconciliation event followed by exactly one heartbeat publication — the
subsequence of reconcile/publish events of a tick's trace is precisely
`[ensure_running, publish]`, with the snapshot listing the registry in
order — so exactly one managerState message is published per tick, always
after that tick's reconciliation. -/
theorem heartbeat_per_tick (procs ignore : List String) (prev : Bool)
    (inputs : List TickInput) :
    ∀ evs ∈ loop_ticks procs ignore prev inputs,
      ∃ s, evs.filter (fun e => isReconcileEvent e || isHeartbeatEvent e) =
        [Event.ensureRunning s ignore, Event.publish procs] := by
  intro evs hm
  obtain ⟨p2, t, rfl⟩ := mem_loop_ticks procs ignore prev inputs evs hm
  exact ⟨t.started, tick_filter_rp procs ignore p2 t⟩

/-- C8 witness: the single tick of a one-sample run. -/
theorem heartbeat_per_tick_witness :
    ∃ s, ((tick ["camerad", "modeld"] [] false
        ⟨false, false, false, false, false⟩).1.filter
          (fun e => isReconcileEvent e || isHeartbeatEvent e)) =
      [Event.ensureRunning s [], Event.publish ["camerad", "modeld"]] :=
  heartbeat_per_tick ["camerad", "modeld"] [] false
    [⟨false, false, false, false, false⟩] _ (by decide)

theorem tick_ensure_mem (procs ignore : List String) (prev : Bool) (t : TickInput)
    (s : Bool) (l : List String)
    (h : Event.ensureRunning s l ∈ (tick procs ignore prev t).1) : l = ignore := by
  rcases tick_mem_cases procs ignore prev t _ h with
    h2 | h2 | h2 | h2 | h2 | ⟨k, v, h2⟩ | h2 <;> simp at h2
  exact h2.2

theorem loop_ensure_mem (procs ignore : List String) (prev : Bool)
    (inputs : List TickInput) (s : Bool) (l : List String)
    (h : Event.ensureRunning s l ∈ (loop_ticks procs ignore prev inputs).flatten) :
    l = ignore := by
  induction inputs generalizing prev with
  | nil => simp [loop_ticks] at h
  | cons t ts ih =>
    by_cases hr : (tick procs ignore prev t).2 = true
    · rw [show loop_ticks procs ignore prev (t :: ts) =
        [(tick procs ignore prev t).1] from by simp [loop_ticks, hr]] at h
      exact tick_ensure_mem procs ignore prev t s l (by simpa using h)
    · rw [show loop_ticks procs ignore prev (t :: ts) =
        (tick procs ignore prev t).1 :: loop_ticks procs ignore t.started ts from
        by simp [loop_ticks, hr], List.flatten_cons] at h
      rcases List.mem_append.mp h with h | h
      · exact tick_ensure_mem procs ignore prev t s l h
      · exact ih t.started h

theorem thread_ensure_mem (procs ignore : List String) (inputs : List TickInput)
    (s : Bool) (l : List String)
    (h : Event.ensureRunning s l ∈ manager_thread_events procs ignore inputs) :
    l = ignore := by
  rw [show manager_thread_events procs ignore inputs =
    [Event.writeOnroadParams false, Event.ensureRunning false ignore]
      ++ (loop_ticks procs ignore false inputs).flatten from rfl] at h
  rcases List.mem_append.mp h with h | h
  · rcases List.mem_cons.mp h with h2 | h2
    · simp at h2
    · have h3 : Event.ensureRunning s l = Event.ensureRunning false ignore := by
        simpa using h2
      injection h3 with hs hl
  · exact loop_ensure_mem procs ignore false inputs s l h

/-- C7: a worker named in the ignore list — which contains "uploader" and
"manage_athenad" whenever the dongle id is absent or the unregistered
sentinel — has shouldRun false and is driven to Stopped, never Running; and
every reconciliation event of the `manager_thread` trace, on every tick and
for every onroad value, carries exactly the computed ignore list as its
not-run set. -/
theorem blocked_worker_never_running (ctx : IgnoreCtx) (started : Bool)
    (w : WorkerSpec) :
    ((ctx.dongleId = none ∨ ctx.dongleId = some UNREGISTERED_DONGLE_ID) →
      "uploader" ∈ compute_ignore ctx ∧ "manage_athenad" ∈ compute_ignore ctx) ∧
    (w.name ∈ compute_ignore ctx →
      should_run w started (compute_ignore ctx) = false ∧
      reconcile_target w started (compute_ignore ctx) = WState.Stopped) ∧
    (∀ procs inputs s l,
      Event.ensureRunning s l ∈ manager_thread_events procs (compute_ignore ctx) inputs →
      l = compute_ignore ctx) := by
  refine ⟨?_, ?_, ?_⟩
  · intro h
    constructor
    · unfold compute_ignore
      rw [if_pos h]
      simp
    · unfold compute_ignore
      rw [if_pos h]
      simp
  · intro h
    have hsr : should_run w started (compute_ignore ctx) = false := by
      simp [should_run, h]
    exact ⟨hsr, by simp [reconcile_target, hsr]⟩
  · intro procs inputs s l h
    exact thread_ensure_mem procs (compute_ignore ctx) inputs s l h

/-- C7 witness: an unregistered device (absent dongle id) with an uploader
worker whose enablement predicate is otherwise always true. -/
theorem blocked_worker_never_running_witness :
    ("uploader" ∈ compute_ignore ⟨false, false, none, false, ""⟩ ∧
      "manage_athenad" ∈ compute_ignore ⟨false, false, none, false, ""⟩) ∧
    (should_run ⟨"uploader", fun _ => true⟩ true
        (compute_ignore ⟨false, false, none, false, ""⟩) = false ∧
      reconcile_target ⟨"uploader", fun _ => true⟩ true
        (compute_ignore ⟨false, false, none, false, ""⟩) = WState.Stopped) :=
  ⟨(blocked_worker_never_running ⟨false, false, none, false, ""⟩ true
      ⟨"uploader", fun _ => true⟩).1 (Or.inl rfl),
   (blocked_worker_never_running ⟨false, false, none, false, ""⟩ true
      ⟨"uploader", fun _ => true⟩).2.1 (by decide)⟩

end Manager
